import Mathlib

/-!
Verification development for the Terminal_video ASCII video player
(`src/main.cpp`, class `ASCIIVideoPlayer`).

Shallow embedding conventions:
* `std::unordered_map` is modelled as an association list (`Cache`); a
  `map[key] = value` insertion of a fresh key prepends the pair.
* machine integers are modelled as `Nat` (with `% 256` where the source
  casts to `uint8_t`);
* C++ `double`/`float` arithmetic that is immediately truncated to `int`
  is modelled exactly over the rationals: `static_cast<int>((x / d) * m)`
  for non-negative operands becomes the floor division `x * m / d` on
  `Nat` (the double rounding error is far below the distance of the exact
  rational values to the nearest integer for every 8-bit input, so the
  models agree with the IEEE evaluation on the whole input range);
  playback speed and timing quantities are modelled as `ℚ`.
* `std::string` is modelled as `String`.
-/

namespace TerminalVideo

/-- `enum ColorMode` of `main.cpp` lines 24-28. -/
inductive ColorMode where
  | MONO
  | COLOR_8BIT
  | COLOR_24BIT
deriving DecidableEq, Repr

open ColorMode

/-- A `cv::Vec3b` pixel, channel order BGR as OpenCV stores frames. -/
structure Pixel where
  b : Nat
  g : Nat
  r : Nat
deriving DecidableEq, Repr

/-- `struct ColorKey` of `main.cpp` lines 35-42 (fields are `uint8_t`). -/
structure ColorKey where
  r : Nat
  g : Nat
  b : Nat
  background : Bool
deriving DecidableEq, Repr

/-- `struct CacheStats` of `main.cpp` lines 56-64. -/
structure CacheStats where
  hits : Nat := 0
  misses : Nat := 0
  cache_size : Nat := 0
deriving DecidableEq, Repr

/-- `std::unordered_map` modelled as an association list. -/
abbrev Cache (α β : Type) : Type := List (α × β)

/-- `map.find(k)` on the association-list model. -/
def Cache.findVal {α β : Type} [DecidableEq α] (c : Cache α β) (k : α) : Option β :=
  (List.find? (fun kv => kv.1 = k) c).map (fun kv => kv.2)

/-- Number of stored entries, `map.size()`. -/
def Cache.size {α β : Type} (c : Cache α β) : Nat := List.length c

/-- The mutable fields of `class ASCIIVideoPlayer` that the rendering and
caching code touches: current color mode, the three caches
(lines 51-53) and the statistics (line 64). -/
structure PlayerState where
  current_color_mode : ColorMode
  color_cache_8bit : Cache ColorKey String
  color_cache_24bit : Cache ColorKey String
  rgb_to_8bit_cache : Cache Nat Nat
  cache_stats : CacheStats
deriving DecidableEq, Repr

/-- `packRGB` of `main.cpp` lines 122-124: `(r << 16) | (g << 8) | b`. -/
def packRGB (r g b : Nat) : Nat :=
  r * 65536 + g * 256 + b

/-- The pure quantization performed on the miss path of
`rgbTo8BitColorCached`, `main.cpp` lines 138-150.  The float expressions
`static_cast<int>(((r - 8) / 247.0) * 24)` and
`static_cast<int>((c / 255.0) * 5)` are modelled as the exact floor
divisions `(r - 8) * 24 / 247` and `c * 5 / 255`. -/
def rgbTo8BitColor (r g b : Nat) : Nat :=
  if r = g ∧ g = b then
    if r < 8 then 16
    else if r > 248 then 231
    else (r - 8) * 24 / 247 + 232
  else
    let ir := r * 5 / 255
    let ig := g * 5 / 255
    let ib := b * 5 / 255
    16 + 36 * ir + 6 * ig + ib

/-- `rgbTo8BitColorCached`, `main.cpp` lines 127-155: memoized wrapper
around the quantization, updating the shared hit/miss counters and the
total cache size. -/
def rgbTo8BitColorCached (r g b : Nat) (ps : PlayerState) : Nat × PlayerState :=
  let rgb_key := packRGB r g b
  match Cache.findVal ps.rgb_to_8bit_cache rgb_key with
  | some v =>
      (v, { ps with cache_stats := { ps.cache_stats with hits := ps.cache_stats.hits + 1 } })
  | none =>
      let ps1 := { ps with cache_stats := { ps.cache_stats with misses := ps.cache_stats.misses + 1 } }
      let color := rgbTo8BitColor r g b
      let cache := (rgb_key, color) :: ps1.rgb_to_8bit_cache
      let ps2 := { ps1 with rgb_to_8bit_cache := cache }
      let ps3 := { ps2 with cache_stats := { ps2.cache_stats with
        cache_size := Cache.size cache + Cache.size ps2.color_cache_8bit +
          Cache.size ps2.color_cache_24bit } }
      (color, ps3)

/-- `getColorCodeCached`, `main.cpp` lines 158-192.  The `ColorKey` is
built with `uint8_t` casts (`% 256`); the 24-bit escape text uses the
uncast `int` arguments, exactly as the source does. -/
def getColorCodeCached (r g b : Nat) (background : Bool) (ps : PlayerState) :
    String × PlayerState :=
  if ps.current_color_mode = MONO then ("", ps)
  else
    let key : ColorKey := ⟨r % 256, g % 256, b % 256, background⟩
    if ps.current_color_mode = COLOR_8BIT then
      match Cache.findVal ps.color_cache_8bit key with
      | some code =>
          (code, { ps with cache_stats := { ps.cache_stats with hits := ps.cache_stats.hits + 1 } })
      | none =>
          let ps1 := { ps with cache_stats := { ps.cache_stats with misses := ps.cache_stats.misses + 1 } }
          let cp := rgbTo8BitColorCached r g b ps1
          let code := "\x1b[" ++ (if background then "48" else "38") ++ ";5;" ++
            toString cp.1 ++ "m"
          let cache := (key, code) :: cp.2.color_cache_8bit
          let ps2 := { cp.2 with color_cache_8bit := cache }
          let ps3 := { ps2 with cache_stats := { ps2.cache_stats with
            cache_size := Cache.size ps2.rgb_to_8bit_cache + Cache.size cache +
              Cache.size ps2.color_cache_24bit } }
          (code, ps3)
    else if ps.current_color_mode = COLOR_24BIT then
      match Cache.findVal ps.color_cache_24bit key with
      | some code =>
          (code, { ps with cache_stats := { ps.cache_stats with hits := ps.cache_stats.hits + 1 } })
      | none =>
          let ps1 := { ps with cache_stats := { ps.cache_stats with misses := ps.cache_stats.misses + 1 } }
          let code := "\x1b[" ++ (if background then "48" else "38") ++ ";2;" ++
            toString r ++ ";" ++ toString g ++ ";" ++ toString b ++ "m"
          let cache := (key, code) :: ps1.color_cache_24bit
          let ps2 := { ps1 with color_cache_24bit := cache }
          let ps3 := { ps2 with cache_stats := { ps2.cache_stats with
            cache_size := Cache.size ps2.rgb_to_8bit_cache + Cache.size ps2.color_cache_8bit +
              Cache.size cache } }
          (code, ps3)
    else ("", ps)

/-- `resetColor`, `main.cpp` lines 194-196. -/
def resetColor (ps : PlayerState) : String :=
  if ps.current_color_mode ≠ MONO then "\x1b[0m" else ""

/-- `clearColorCaches`, `main.cpp` lines 237-242. -/
def clearColorCaches (ps : PlayerState) : PlayerState :=
  { ps with
    color_cache_8bit := []
    color_cache_24bit := []
    rgb_to_8bit_cache := []
    cache_stats := {} }

/-- Successor mode `(current_color_mode + 1) % 3` used by the 'c' key. -/
def nextColorMode : ColorMode → ColorMode
  | MONO => COLOR_8BIT
  | COLOR_8BIT => COLOR_24BIT
  | COLOR_24BIT => MONO

/-- `setColorMode`, `main.cpp` lines 217-230. -/
def setColorMode (mode : ColorMode) (ps : PlayerState) : PlayerState :=
  if ps.current_color_mode ≠ mode then
    let ps1 := { ps with current_color_mode := mode }
    let ps2 :=
      if mode ≠ COLOR_8BIT then
        { ps1 with color_cache_8bit := [], rgb_to_8bit_cache := [] }
      else ps1
    let ps3 :=
      if mode ≠ COLOR_24BIT then
        { ps2 with color_cache_24bit := [] }
      else ps2
    { ps3 with cache_stats := { ps3.cache_stats with
      cache_size := Cache.size ps3.rgb_to_8bit_cache + Cache.size ps3.color_cache_8bit +
        Cache.size ps3.color_cache_24bit } }
  else ps

/-- A fresh player: caches created empty, zero statistics. -/
def emptyState (m : ColorMode) : PlayerState :=
  ⟨m, [], [], [], {}⟩

/-- `ASCII_CHARS`, `main.cpp` line 21 (70 glyphs, light to dense). -/
def ASCII_CHARS : List Char :=
  (" .'`^\",:;Il!i><~+_-?][\x7d\x7b1)(|\\/tfjrxnuvczXYUJCLQ0OZmwqpdbkhao*#MW&8%B@$").data

/-- `brightness_to_char_idx`, filled by `initializeBrightnessLookup`
(`main.cpp` lines 199-204): `(i * (ASCII_CHARS.size() - 1)) / 255`. -/
def brightness_to_char_idx (i : Nat) : Nat :=
  i * (ASCII_CHARS.length - 1) / 255

/-- The glyph chosen for a brightness value:
`ASCII_CHARS[brightness_to_char_idx[b]]` (out-of-range access, impossible
for 8-bit brightness, is totalised with a space). -/
def glyphChar (bright : Nat) : Char :=
  ASCII_CHARS.getD (brightness_to_char_idx bright) ' '

/-- Perceptual luma of a BGR pixel, `main.cpp` line 314:
`static_cast<int>(0.299 * pixel[2] + 0.587 * pixel[1] + 0.114 * pixel[0])`,
modelled as the exact floor of the rational weighted sum. -/
def luma (p : Pixel) : Nat :=
  (299 * p.r + 587 * p.g + 114 * p.b) / 1000

/-- Aspect-correcting output-size computation, `main.cpp` lines 259-270
(duplicated verbatim at lines 336-347): `char_aspect_ratio = 2.2 = 11/5`;
the float comparison `frame_aspect > (target_width * 2.2) / target_height`
is cross-multiplied over the positive denominators, and the two
`static_cast<int>` floors become `Nat` divisions.  Returns
`(new_width, new_height)`. -/
def computeDims (frame_cols frame_rows target_width target_height : Nat) : Nat × Nat :=
  if 5 * frame_cols * target_height > 11 * target_width * frame_rows then
    (target_width, 5 * target_width * frame_rows / (11 * frame_cols))
  else
    (11 * target_height * frame_cols / (5 * frame_rows), target_height)

/-- The ASCII escape character that opens every ANSI code. -/
def escChar : Char := '\x1b'

/-- Number of ANSI escape codes contained in a piece of output (every
emitted code starts with exactly one ESC byte). -/
def countEsc (s : String) : Nat := s.data.count escChar

/-- A string that starts with the ESC byte, i.e. an ANSI escape code
possibly followed by more output. -/
def EscHeaded (s : String) : Prop := s.data.head? = some escChar

instance (s : String) : Decidable (EscHeaded s) := by
  unfold EscHeaded; infer_instance

/-- `std::string` concatenation of the per-row buffers. -/
def joinAll : List String → String
  | [] => ""
  | s :: rest => s ++ joinAll rest

/-- The row-scan accumulator of the colored render loops
(`main.cpp` lines 295-296 and 356-357): the last *emitted* escape code,
the last *seen* pixel, and the player whose caches the loop updates. -/
structure ScanState where
  lastColorCode : String
  lastPixel : Pixel
  ps : PlayerState
deriving DecidableEq, Repr

/-- Loop entry state: `lastColorCode` empty, `lastPixel = {255,255,255}`
(the "invalid initial color" sentinel of lines 296 and 357). -/
def initScan (ps : PlayerState) : ScanState :=
  ⟨"", ⟨255, 255, 255⟩, ps⟩

/-- One iteration of the inner x-loop shared by `frameToAscii`
(lines 300-315) and `frameToColorBlocks` (lines 361-374): emit a new
escape code only when the pixel differs from the last pixel *and* its
code differs from the last emitted code, then emit the cell text
(a glyph for the ascii style, a space for the block style). -/
def scanPixel (background : Bool) (cell : Pixel → String) (s : ScanState) (pixel : Pixel) :
    String × ScanState :=
  if pixel ≠ s.lastPixel then
    let cp := getColorCodeCached pixel.r pixel.g pixel.b background s.ps
    if cp.1 ≠ s.lastColorCode then
      (cp.1 ++ cell pixel, ⟨cp.1, pixel, cp.2⟩)
    else
      (cell pixel, ⟨s.lastColorCode, pixel, cp.2⟩)
  else
    (cell pixel, s)

/-- One row of the colored render loops: scan the pixels, then append
`resetColor() + '\n'` and clear the last-emitted-code tracker
(lines 317-318 and 376-377).  `lastPixel` is *not* touched at the row
boundary, exactly as in the source. -/
def scanRow (background : Bool) (cell : Pixel → String) (s : ScanState) :
    List Pixel → String × ScanState
  | [] => (resetColor s.ps ++ "\n", { s with lastColorCode := "" })
  | p :: rest =>
      let os2 := scanPixel background cell s p
      let rs3 := scanRow background cell os2.2 rest
      (os2.1 ++ rs3.1, rs3.2)

/-- The y-loop of the colored render paths: one output line per raster
row. -/
def scanRows (background : Bool) (cell : Pixel → String) (s : ScanState) :
    List (List Pixel) → List String × ScanState
  | [] => ([], s)
  | row :: rest =>
      let ls2 := scanRow background cell s row
      let lss3 := scanRows background cell ls2.2 rest
      (ls2.1 :: lss3.1, lss3.2)

/-- Cell text of the glyph style: the brightness-selected glyph. -/
def asciiCell (pixel : Pixel) : String :=
  String.singleton (glyphChar (luma pixel))

/-- Cell text of the filled-block style: one space per cell (line 374). -/
def blockCell (_pixel : Pixel) : String := " "

/-- `frameToAscii`, `main.cpp` lines 249-323, applied to the raster the
resampling collaborator produced (`cv::resize` and the terminal-size
auto-detection are external, §6 of the spec; the sizing arithmetic is
`computeDims`).  `equalize` abstracts the `cv::equalizeHist` collaborator
used only by the monochrome branch. -/
def frameToAscii (equalize : List (List Nat) → List (List Nat))
    (frame : List (List Pixel)) (ps : PlayerState) : String × PlayerState :=
  if frame = [] then ("", ps)
  else if ps.current_color_mode = MONO then
    let gray := equalize (frame.map (fun row => row.map luma))
    (joinAll (gray.map (fun row => String.mk (row.map glyphChar) ++ "\n")), ps)
  else
    let lss := scanRows false asciiCell (initScan ps) frame
    (joinAll lss.1, lss.2.ps)

/-- `frameToColorBlocks`, `main.cpp` lines 326-381: an empty raster or
monochrome mode delegates to `frameToAscii` (line 327); otherwise the
same scan with background codes and space cells. -/
def frameToColorBlocks (equalize : List (List Nat) → List (List Nat))
    (frame : List (List Pixel)) (ps : PlayerState) : String × PlayerState :=
  if frame = [] ∨ ps.current_color_mode = MONO then frameToAscii equalize frame ps
  else
    let lss := scanRows true blockCell (initScan ps) frame
    (joinAll lss.1, lss.2.ps)

/-- `struct TerminalSize`, `main.cpp` lines 69-72. -/
structure TerminalSize where
  width : Int
  height : Int
deriving DecidableEq, Repr

/-- The local control state of `playVideoAscii` (`main.cpp`
lines 415-419) together with the player fields the key handler touches. -/
structure VideoState where
  ps : PlayerState
  paused : Bool
  block_mode : Bool
  fullscreen_mode : Bool
  speed_multiplier : ℚ
  width : Int
  height : Int
  original_width : Int
  original_height : Int
  quit : Bool
deriving DecidableEq, Repr

/-- The `switch (key)` of `playVideoAscii`, `main.cpp` lines 426-448.
The source has no `break` between the fullscreen branch (lines 435-444)
and `case 'r'` (lines 445-447), so an 'f'/'F' key also executes
`clearColorCaches()`; the model reproduces that fall-through. -/
def handleKeyVideo (term : TerminalSize) (vs : VideoState) (key : Char) : VideoState :=
  if key = 'q' ∨ key = 'Q' ∨ key = escChar then { vs with quit := true }
  else if key = ' ' then { vs with paused := !vs.paused }
  else if key = '+' ∨ key = '=' then
    { vs with speed_multiplier := min (vs.speed_multiplier * 1.5) 5.0 }
  else if key = '-' ∨ key = '_' then
    { vs with speed_multiplier := max (vs.speed_multiplier / 1.5) 0.2 }
  else if key = 'c' ∨ key = 'C' then
    { vs with ps := setColorMode (nextColorMode vs.ps.current_color_mode) vs.ps }
  else if key = 'b' ∨ key = 'B' then { vs with block_mode := !vs.block_mode }
  else if key = 'f' ∨ key = 'F' then
    let vs1 :=
      if !vs.fullscreen_mode then
        { vs with fullscreen_mode := true, width := term.width - 2, height := term.height - 4 }
      else
        { vs with
          fullscreen_mode := false
          width := vs.original_width
          height := vs.original_height }
    { vs1 with ps := clearColorCaches vs1.ps }
  else if key = 'r' ∨ key = 'R' then { vs with ps := clearColorCaches vs.ps }
  else vs

/-- The local control state of `playFromCamera` (`main.cpp`
lines 497-499). -/
structure CameraState where
  ps : PlayerState
  block_mode : Bool
  fullscreen_mode : Bool
  width : Int
  height : Int
  original_width : Int
  original_height : Int
  quit : Bool
deriving DecidableEq, Repr

/-- The key dispatch of `playFromCamera`, `main.cpp` lines 506-525: an
`if`/`else if` chain, so the fullscreen branch cannot fall through into
the cache-clearing branch ('s'/'S' only prints and waits, leaving the
state unchanged). -/
def handleKeyCamera (term : TerminalSize) (cs : CameraState) (key : Char) : CameraState :=
  if key = 'q' ∨ key = 'Q' then { cs with quit := true }
  else if key = 'c' ∨ key = 'C' then
    { cs with ps := setColorMode (nextColorMode cs.ps.current_color_mode) cs.ps }
  else if key = 'b' ∨ key = 'B' then { cs with block_mode := !cs.block_mode }
  else if key = 's' ∨ key = 'S' then cs
  else if key = 'r' ∨ key = 'R' then { cs with ps := clearColorCaches cs.ps }
  else if key = 'f' ∨ key = 'F' then
    if !cs.fullscreen_mode then
      { cs with fullscreen_mode := true, width := term.width - 2, height := term.height - 4 }
    else
      { cs with
        fullscreen_mode := false
        width := cs.original_width
        height := cs.original_height }
  else cs

/-- What one pass of the `playVideoAscii` loop did. -/
structure TickReport where
  framePulled : Bool
  streamEnded : Bool
  pacingApplied : Bool
  sleepMs : ℚ
deriving DecidableEq, Repr

/-- The state carried between iterations of the `playVideoAscii` loop,
`main.cpp` lines 412-420: the held frame, the frame counter, the frames
the capture has not yet delivered, and the fixed base delay
(`1000/fps`, or `33.33` when fps is unknown). -/
structure PlayLoopState where
  vs : VideoState
  frame : List (List Pixel)
  frame_number : Nat
  remaining : List (List (List Pixel))
  base_delay : ℚ
deriving Repr

/-- One iteration of the `while (true)` loop of `playVideoAscii`,
`main.cpp` lines 422-482: process the pending keys, pull the next frame
unless paused (an exhausted or empty read breaks out of the loop), render
the held frame through `frameToColorBlocks`/`frameToAscii` (the
`resample` argument abstracts the `cv::resize` collaborator), and pace:
sleep whenever the measured `elapsed` is below
`base_delay / speed_multiplier` — the pacing block (lines 477-481) runs
on every iteration, paused or not. -/
def videoTick (term : TerminalSize)
    (resample : List (List Pixel) → List (List Pixel))
    (equalize : List (List Nat) → List (List Nat))
    (keys : List Char) (elapsed : ℚ) (st : PlayLoopState) :
    PlayLoopState × TickReport :=
  let vs := keys.foldl (handleKeyVideo term) st.vs
  if vs.quit then ({ st with vs := vs }, ⟨false, false, false, 0⟩)
  else
    let pulled :=
      if vs.paused then none
      else match st.remaining with
        | [] => some none
        | f :: rest => if f = [] then some none else some (some (f, rest))
    match pulled with
    | some none =>
        ({ st with vs := vs }, ⟨false, true, false, 0⟩)
    | other =>
        let fr := match other with
          | some (some p) => (p.1, st.frame_number + 1, p.2, true)
          | _ => (st.frame, st.frame_number, st.remaining, false)
        let ps2 :=
          if fr.1 = [] then vs.ps
          else if vs.block_mode ∧ vs.ps.current_color_mode ≠ MONO then
            (frameToColorBlocks equalize (resample fr.1) vs.ps).2
          else
            (frameToAscii equalize (resample fr.1) vs.ps).2
        let current_delay := st.base_delay / vs.speed_multiplier
        ({ vs := { vs with ps := ps2 }, frame := fr.1, frame_number := fr.2.1,
           remaining := fr.2.2.1, base_delay := st.base_delay },
         ⟨fr.2.2.2, false, decide (elapsed < current_delay),
          if elapsed < current_delay then current_delay - elapsed else 0⟩)

/-- A run of escape-code lookups: each element of `ks` is looked up once
through `getColorCodeCached`, threading the player state. -/
def lookupAll (ks : List ColorKey) (ps : PlayerState) : PlayerState :=
  ks.foldl (fun ps k => (getColorCodeCached k.r k.g k.b k.background ps).2) ps

/-- Pure red in BGR order, `cv::Vec3b(0,0,255)`. -/
def red : Pixel := ⟨0, 0, 255⟩

/-- Pure white, equal to the renderer's `lastPixel` sentinel. -/
def whitePixel : Pixel := ⟨255, 255, 255⟩

/-- A fresh true-color player. -/
def ps24 : PlayerState := emptyState COLOR_24BIT

/-- An 80×24 terminal. -/
def term0 : TerminalSize := ⟨80, 24⟩

/-- A concrete warm player mid-session: true color, one cached escape
code, `cache_stats = {hits := 3, misses := 5, cache_size := 1}`. -/
def warmPS : PlayerState :=
  ⟨COLOR_24BIT, [], [(⟨9, 9, 9, false⟩, "\x1b[38;2;9;9;9m")], [], ⟨3, 5, 1⟩⟩

/-- A concrete `playVideoAscii` control state holding `warmPS`. -/
def warmVS : VideoState :=
  ⟨warmPS, false, false, false, 1, 10, 10, 10, 10, false⟩

/-- The same player inside the camera loop. -/
def warmCS : CameraState :=
  ⟨warmPS, false, false, 10, 10, 10, 10, false⟩

/-- A paused `playVideoAscii` loop state: no held frame yet, no frames
left, `base_delay = 100/3` ms (the `fps` unknown default 33.33). -/
def pausedLoop : PlayLoopState :=
  ⟨{ warmVS with paused := true }, [], 0, [], 100 / 3⟩

/-- C1 (status: code_bug).  Rendering a uniform all-red 2-row × 1-column
raster in TrueColor24 glyph mode emits the color escape code only on the
first row: the per-row ESC-byte counts are `[2, 1]` (first row: one color
code plus the reset; second row: the reset only), not the `[2, 2]` the
claim's one-color-code-per-row property predicts.  `lastColorCode` is
cleared at the row boundary but `lastPixel` is not, so after the row-end
reset the second row's first pixel still equals `lastPixel` and no code
is re-emitted — color state does leak across rows. -/
theorem c1_row_color_codes :
    (scanRows false asciiCell (initScan ps24) [[red], [red]]).1 =
      ["\x1b[38;2;255;0;0m]\x1b[0m\n", "]\x1b[0m\n"] ∧
    ((scanRows false asciiCell (initScan ps24) [[red], [red]]).1).map countEsc = [2, 1] ∧
    ¬ ((scanRows false asciiCell (initScan ps24) [[red], [red]]).1).map countEsc = [2, 2] := by
  decide

/-- C2 counterexample.  In Indexed256 mode, a single lookup (M = 1) of a
fresh `ColorKey` from empty caches leaves the miss counter at 2, not 1:
the escape-code miss increments the shared counter once itself and once
more inside the nested `rgbTo8BitColorCached` lookup. -/
theorem c2_counterexample :
    (lookupAll [⟨1, 2, 3, false⟩] (emptyState COLOR_8BIT)).cache_stats.misses = 2 ∧
    ¬ (lookupAll [⟨1, 2, 3, false⟩] (emptyState COLOR_8BIT)).cache_stats.misses = 1 := by
  decide

/-- C3 (status: code_bug).  In `playVideoAscii`, pressing 'f' on a warm
player does toggle fullscreen and adopt the terminal geometry, but —
because the `switch` falls through into `case 'r'` — it also clears every
color cache and resets the `CacheStats` counters, contradicting the
claimed independence; the camera loop's `if`/`else if` dispatch leaves
the player untouched on 'f'. -/
theorem c3_fullscreen_clears_caches :
    (handleKeyVideo term0 warmVS 'f').fullscreen_mode = true ∧
    (handleKeyVideo term0 warmVS 'f').width = 78 ∧
    (handleKeyVideo term0 warmVS 'f').height = 20 ∧
    warmVS.ps.cache_stats = ⟨3, 5, 1⟩ ∧
    warmVS.ps.color_cache_24bit ≠ [] ∧
    (handleKeyVideo term0 warmVS 'f').ps.cache_stats = ⟨0, 0, 0⟩ ∧
    (handleKeyVideo term0 warmVS 'f').ps.color_cache_24bit = [] ∧
    (handleKeyCamera term0 warmCS 'f').ps = warmCS.ps := by
  decide

/-- C4 counterexample.  A tick executed while Paused (no pending keys, no
held frame, `base_delay = 100/3`, speed 1, elapsed 0) pulls no frame but
*does* apply the end-of-tick pacing: the code sleeps toward
`base_delay / speed_multiplier` on every iteration, paused or not. -/
theorem c4_counterexample :
    (videoTick term0 id id [] 0 pausedLoop).2.framePulled = false ∧
    (videoTick term0 id id [] 0 pausedLoop).1.frame_number = 0 ∧
    (videoTick term0 id id [] 0 pausedLoop).2.pacingApplied = true ∧
    (videoTick term0 id id [] 0 pausedLoop).2.sleepMs = 100 / 3 := by
  refine ⟨?_, ?_, ?_, ?_⟩ <;>
    simp [videoTick, pausedLoop, warmVS, warmPS, term0, handleKeyVideo]

/-- C5 counterexample.  A 10000×1 raster in a positive 10×10 box — the
claim's own "very wide raster in a short box" — yields output height 0:
no minimum-1 clamp exists, the floor `5*10*1 / (11*10000)` is passed to
the resampler as is. -/
theorem c5_counterexample :
    computeDims 10000 1 10 10 = (10, 0) ∧
    ¬ 1 ≤ (computeDims 10000 1 10 10).2 := by
  decide

/-- C6 counterexample.  A square (1×1-aspect) frame in a 10×10 box takes
the second branch and computes output width
`floor(10 * 1 * 2.2) = 22 > 10 = boxWidth`: the aspect-fit claim
`width ≤ boxWidth` fails because the branch condition compares against
`(boxWidth * CHAR_ASPECT) / boxHeight` instead of
`boxWidth / (boxHeight * CHAR_ASPECT)`. -/
theorem c6_counterexample :
    computeDims 1 1 10 10 = (22, 10) ∧
    ¬ (computeDims 1 1 10 10).1 ≤ 10 := by
  decide

/-- C7 counterexample.  The achromatic quantizer is not monotonically
non-decreasing: v = 248 maps through the ramp to index 255 while
v = 249 maps to 231. -/
theorem c7_counterexample :
    (248 : Nat) ≤ 249 ∧
    rgbTo8BitColor 248 248 248 = 255 ∧
    rgbTo8BitColor 249 249 249 = 231 ∧
    ¬ rgbTo8BitColor 248 248 248 ≤ rgbTo8BitColor 249 249 249 := by
  decide

/-- C10 (status: confirmed).  On the empty raster both render entry
points return the empty text buffer without touching the player state
(caches, counters, mode), and `frameToColorBlocks` delegates to
`frameToAscii`, which returns immediately. -/
theorem c10_empty_raster (equalize : List (List Nat) → List (List Nat)) (ps : PlayerState) :
    frameToAscii equalize [] ps = ("", ps) ∧
    frameToColorBlocks equalize [] ps = frameToAscii equalize [] ps ∧
    frameToColorBlocks equalize [] ps = ("", ps) := by
  refine ⟨rfl, ?_, ?_⟩ <;> simp [frameToColorBlocks, frameToAscii]

/-- C5 (status: corrected, amended claim).  For positive frame and box
dimensions the branch-selected output dimension equals its box bound
(hence is at least 1), while the derived dimension carries no minimum-1
clamp: it is at least 1 exactly when the floor formula's numerator
reaches its denominator, and 0 otherwise. -/
theorem c5_amended_dims (fw fh tw th : Nat) (hfw : 0 < fw) (hfh : 0 < fh)
    (htw : 0 < tw) (hth : 0 < th) :
    (5 * fw * th > 11 * tw * fh →
      (computeDims fw fh tw th).1 = tw ∧
      (1 ≤ (computeDims fw fh tw th).2 ↔ 11 * fw ≤ 5 * tw * fh)) ∧
    (¬ 5 * fw * th > 11 * tw * fh →
      (computeDims fw fh tw th).2 = th ∧
      (1 ≤ (computeDims fw fh tw th).1 ↔ 5 * fh ≤ 11 * th * fw)) := by
  unfold computeDims
  constructor
  · intro h
    rw [if_pos h]
    exact ⟨rfl, Nat.one_le_div_iff (by positivity)⟩
  · intro h
    rw [if_neg h]
    exact ⟨rfl, Nat.one_le_div_iff (by positivity)⟩

/-- C5 witness: a 1×1 frame in a 1×1 box takes the second branch and the
derived width is at least 1 there. -/
theorem c5_witness :
    (computeDims 1 1 1 1).2 = 1 ∧ (1 ≤ (computeDims 1 1 1 1).1 ↔ 5 * 1 ≤ 11 * 1 * 1) :=
  (c5_amended_dims 1 1 1 1 (by decide) (by decide) (by decide) (by decide)).2 (by decide)

/-- C6 (status: corrected, amended claim).  For all positive box and
frame dimensions the computed output height never exceeds the box
height and at least one output dimension equals its box bound; in the
first branch the width additionally equals the box width, so both
dimensions fit there — but nothing bounds the width by the box width in
the second branch. -/
theorem c6_amended_aspect_fit (fw fh tw th : Nat) (hfw : 0 < fw) (hfh : 0 < fh)
    (htw : 0 < tw) (hth : 0 < th) :
    (computeDims fw fh tw th).2 ≤ th ∧
    ((computeDims fw fh tw th).1 = tw ∨ (computeDims fw fh tw th).2 = th) ∧
    (5 * fw * th > 11 * tw * fh →
      (computeDims fw fh tw th).1 = tw ∧ (computeDims fw fh tw th).2 ≤ th) := by
  unfold computeDims
  by_cases h : 5 * fw * th > 11 * tw * fh
  · rw [if_pos h]
    have key : 5 * tw * fh ≤ 11 * fw * th := by nlinarith
    have hdiv : 5 * tw * fh / (11 * fw) ≤ th :=
      calc 5 * tw * fh / (11 * fw) ≤ 11 * fw * th / (11 * fw) := Nat.div_le_div_right key
        _ = th := Nat.mul_div_cancel_left th (by positivity)
    exact ⟨hdiv, Or.inl rfl, fun _ => ⟨rfl, hdiv⟩⟩
  · rw [if_neg h]
    exact ⟨le_refl th, Or.inr rfl, fun hc => absurd hc h⟩

/-- C6 witness: in the first branch (a 100×1 frame in a 10×10 box) both
dimensions fit, width equals the box width. -/
theorem c6_witness :
    (computeDims 100 1 10 10).2 ≤ 10 ∧
    ((computeDims 100 1 10 10).1 = 10 ∨ (computeDims 100 1 10 10).2 = 10) ∧
    (5 * 100 * 10 > 11 * 10 * 1 →
      (computeDims 100 1 10 10).1 = 10 ∧ (computeDims 100 1 10 10).2 ≤ 10) :=
  c6_amended_aspect_fit 100 1 10 10 (by decide) (by decide) (by decide) (by decide)

/-- C7 (status: corrected, amended claim).  The achromatic quantizer is
deterministic (a pure function) and always lands in
`{16, 231} ∪ [232, 255]`, maps pure black to 16 and pure white to 231,
and is monotonically non-decreasing on the segment `v ≤ 248`; every
`v > 248` maps to 231, which breaks overall monotonicity at the
248 → 249 step (ramp top 255 versus white 231). -/
theorem c7_amended_grayscale :
    (∀ v : Nat, rgbTo8BitColor v v v = 16 ∨ rgbTo8BitColor v v v = 231 ∨
      (232 ≤ rgbTo8BitColor v v v ∧ rgbTo8BitColor v v v ≤ 255)) ∧
    rgbTo8BitColor 0 0 0 = 16 ∧
    rgbTo8BitColor 255 255 255 = 231 ∧
    (∀ a b : Nat, a ≤ b → b ≤ 248 → rgbTo8BitColor a a a ≤ rgbTo8BitColor b b b) ∧
    (∀ v : Nat, 248 < v → rgbTo8BitColor v v v = 231) := by
  have heval : ∀ v : Nat, rgbTo8BitColor v v v =
      if v < 8 then 16 else if v > 248 then 231 else (v - 8) * 24 / 247 + 232 := by
    intro v
    unfold rgbTo8BitColor
    rw [if_pos ⟨rfl, rfl⟩]
  refine ⟨?_, by decide, by decide, ?_, ?_⟩
  · intro v
    rw [heval v]
    split_ifs <;> omega
  · intro a b hab hb
    rw [heval a, heval b]
    split_ifs <;> omega
  · intro v hv
    rw [heval v]
    split_ifs <;> omega

/-- C7 witness: concrete uses of the amended quantizer properties. -/
theorem c7_witness :
    rgbTo8BitColor 10 10 10 ≤ rgbTo8BitColor 200 200 200 ∧
    rgbTo8BitColor 250 250 250 = 231 :=
  ⟨c7_amended_grayscale.2.2.2.1 10 200 (by decide) (by decide),
   c7_amended_grayscale.2.2.2.2 250 (by decide)⟩

/-- Each key press keeps the speed multiplier inside `[0.2, 5.0]`: the
'+'/'=' branch applies `min (speed * 1.5) 5.0`, the '-'/'_' branch
applies `max (speed / 1.5) 0.2`, and no other branch touches the
speed. -/
theorem handleKeyVideo_speed_bounds (term : TerminalSize) (vs : VideoState) (key : Char)
    (h1 : 0.2 ≤ vs.speed_multiplier) (h2 : vs.speed_multiplier ≤ 5) :
    0.2 ≤ (handleKeyVideo term vs key).speed_multiplier ∧
    (handleKeyVideo term vs key).speed_multiplier ≤ 5 := by
  unfold handleKeyVideo
  split_ifs
  · exact ⟨h1, h2⟩
  · exact ⟨h1, h2⟩
  · exact ⟨le_min (by linarith) (by norm_num),
      (min_le_right _ _).trans (by norm_num : (5.0 : ℚ) ≤ 5)⟩
  · exact ⟨le_max_right _ _,
      max_le (by rw [div_le_iff₀ (by norm_num : (0 : ℚ) < 1.5)]; linarith)
        (by norm_num : (0.2 : ℚ) ≤ 5)⟩
  · exact ⟨h1, h2⟩
  · exact ⟨h1, h2⟩
  · exact ⟨h1, h2⟩
  · exact ⟨h1, h2⟩
  · exact ⟨h1, h2⟩
  · exact ⟨h1, h2⟩

/-- C8 (status: confirmed).  Starting from any speed in `[0.2, 5.0]`,
processing any finite keystroke sequence (in particular any mix of
'+'/'=' and '-'/'_') through the `playVideoAscii` key handler leaves the
speed multiplier in `[0.2, 5.0]`. -/
theorem c8_speed_clamp (term : TerminalSize) (keys : List Char) (vs : VideoState)
    (h1 : 0.2 ≤ vs.speed_multiplier) (h2 : vs.speed_multiplier ≤ 5) :
    0.2 ≤ (keys.foldl (handleKeyVideo term) vs).speed_multiplier ∧
    (keys.foldl (handleKeyVideo term) vs).speed_multiplier ≤ 5 := by
  induction keys generalizing vs with
  | nil => exact ⟨h1, h2⟩
  | cons k rest ih =>
      have step := handleKeyVideo_speed_bounds term vs k h1 h2
      exact ih (handleKeyVideo term vs k) step.1 step.2

/-- C8 witness: six consecutive '+' presses from speed 1 stay clamped. -/
theorem c8_witness :
    0.2 ≤ ((['+', '+', '+', '+', '+', '+'] : List Char).foldl
      (handleKeyVideo term0) warmVS).speed_multiplier ∧
    ((['+', '+', '+', '+', '+', '+'] : List Char).foldl
      (handleKeyVideo term0) warmVS).speed_multiplier ≤ 5 :=
  c8_speed_clamp term0 ['+', '+', '+', '+', '+', '+'] warmVS (by norm_num [warmVS])
    (by norm_num [warmVS])

/-- C4 (status: corrected, amended claim).  On every tick whose
key-processing leaves the player Paused (and not quitting): the pending
input was polled and applied (the resulting control state is the fold of
the key handler), no new frame is pulled — the frame index, the held
frame and the remaining stream are unchanged — but the end-of-tick
pacing toward `base_delay / speed_multiplier` is still evaluated and
applied exactly as on a playing tick (`pacingApplied` is the comparison
`elapsed < base_delay / speed`, not `false`). -/
theorem c4_amended_paused_tick (term : TerminalSize)
    (resample : List (List Pixel) → List (List Pixel))
    (equalize : List (List Nat) → List (List Nat))
    (keys : List Char) (elapsed : ℚ) (st : PlayLoopState)
    (hp : (keys.foldl (handleKeyVideo term) st.vs).paused = true)
    (hq : (keys.foldl (handleKeyVideo term) st.vs).quit = false) :
    (videoTick term resample equalize keys elapsed st).1.frame_number = st.frame_number ∧
    (videoTick term resample equalize keys elapsed st).1.remaining = st.remaining ∧
    (videoTick term resample equalize keys elapsed st).1.frame = st.frame ∧
    (videoTick term resample equalize keys elapsed st).2.framePulled = false ∧
    (videoTick term resample equalize keys elapsed st).2.streamEnded = false ∧
    (videoTick term resample equalize keys elapsed st).1.vs.speed_multiplier =
      (keys.foldl (handleKeyVideo term) st.vs).speed_multiplier ∧
    (videoTick term resample equalize keys elapsed st).1.vs.paused = true ∧
    (videoTick term resample equalize keys elapsed st).2.pacingApplied =
      decide (elapsed < st.base_delay /
        (keys.foldl (handleKeyVideo term) st.vs).speed_multiplier) := by
  unfold videoTick
  simp only [hp, hq, Bool.false_eq_true, if_false, if_true]
  exact ⟨trivial, trivial, trivial, trivial, trivial, trivial, trivial, trivial⟩

/-- C4 witness: a concrete paused tick with no pending keys. -/
theorem c4_witness :
    (videoTick term0 id id [] 0 pausedLoop).1.frame_number = pausedLoop.frame_number ∧
    (videoTick term0 id id [] 0 pausedLoop).1.remaining = pausedLoop.remaining ∧
    (videoTick term0 id id [] 0 pausedLoop).1.frame = pausedLoop.frame ∧
    (videoTick term0 id id [] 0 pausedLoop).2.framePulled = false ∧
    (videoTick term0 id id [] 0 pausedLoop).2.streamEnded = false ∧
    (videoTick term0 id id [] 0 pausedLoop).1.vs.speed_multiplier =
      (([] : List Char).foldl (handleKeyVideo term0) pausedLoop.vs).speed_multiplier ∧
    (videoTick term0 id id [] 0 pausedLoop).1.vs.paused = true ∧
    (videoTick term0 id id [] 0 pausedLoop).2.pacingApplied =
      decide ((0 : ℚ) < pausedLoop.base_delay /
        (([] : List Char).foldl (handleKeyVideo term0) pausedLoop.vs).speed_multiplier) :=
  c4_amended_paused_tick term0 id id [] 0 pausedLoop rfl rfl

/-- A `ColorKey` whose channel fields are genuine 8-bit values, so the
`uint8_t` casts in `getColorCodeCached` are the identity. -/
def KeyInRange (k : ColorKey) : Prop := k.r < 256 ∧ k.g < 256 ∧ k.b < 256

instance (k : ColorKey) : Decidable (KeyInRange k) := by
  unfold KeyInRange; infer_instance

lemma findVal_cons {α β : Type} [DecidableEq α] (a : α) (v : β) (c : Cache α β) (k : α) :
    Cache.findVal ((a, v) :: c) k = if a = k then some v else Cache.findVal c k := by
  unfold Cache.findVal
  rw [List.find?_cons]
  by_cases h : a = k <;> simp [h]

lemma findVal_append_isSome {α β : Type} [DecidableEq α] (c₁ c₂ : Cache α β) (k : α)
    (h : (Cache.findVal c₂ k).isSome) : (Cache.findVal (c₁ ++ c₂) k).isSome := by
  induction c₁ with
  | nil => simpa using h
  | cons a c ih =>
      obtain ⟨a1, a2⟩ := a
      rw [List.cons_append, findVal_cons]
      by_cases hk : a1 = k <;> simp [hk, ih]

lemma getColorCode24_hit (k : ColorKey) (ps : PlayerState)
    (hm : ps.current_color_mode = COLOR_24BIT) (hr : KeyInRange k)
    (code : String) (hf : Cache.findVal ps.color_cache_24bit k = some code) :
    (getColorCodeCached k.r k.g k.b k.background ps).2 =
      { ps with cache_stats := { ps.cache_stats with hits := ps.cache_stats.hits + 1 } } := by
  obtain ⟨h1, h2, h3⟩ := hr
  unfold getColorCodeCached
  rw [hm]
  simp only [Nat.mod_eq_of_lt h1, Nat.mod_eq_of_lt h2, Nat.mod_eq_of_lt h3]
  simp only [show (⟨k.r, k.g, k.b, k.background⟩ : ColorKey) = k from rfl, hf]
  simp [hm]

lemma getColorCode24_miss (k : ColorKey) (ps : PlayerState)
    (hm : ps.current_color_mode = COLOR_24BIT) (hr : KeyInRange k)
    (hf : Cache.findVal ps.color_cache_24bit k = none) :
    ∃ code : String,
      (getColorCodeCached k.r k.g k.b k.background ps).2 =
        { ps with
          color_cache_24bit := (k, code) :: ps.color_cache_24bit
          cache_stats :=
            { hits := ps.cache_stats.hits
              misses := ps.cache_stats.misses + 1
              cache_size := Cache.size ps.rgb_to_8bit_cache +
                Cache.size ps.color_cache_8bit +
                (Cache.size ps.color_cache_24bit + 1) } } := by
  obtain ⟨h1, h2, h3⟩ := hr
  refine ⟨"\x1b[" ++ (if k.background then "48" else "38") ++ ";2;" ++
    toString k.r ++ ";" ++ toString k.g ++ ";" ++ toString k.b ++ "m", ?_⟩
  unfold getColorCodeCached
  rw [hm]
  simp only [Nat.mod_eq_of_lt h1, Nat.mod_eq_of_lt h2, Nat.mod_eq_of_lt h3]
  simp only [show (⟨k.r, k.g, k.b, k.background⟩ : ColorKey) = k from rfl, hf]
  simp [hm, Cache.size]

lemma lookupAll_fresh (ks : List ColorKey) :
    ∀ ps : PlayerState, ps.current_color_mode = COLOR_24BIT →
    (∀ k ∈ ks, KeyInRange k) → ks.Nodup →
    (∀ k ∈ ks, Cache.findVal ps.color_cache_24bit k = none) →
    (lookupAll ks ps).current_color_mode = COLOR_24BIT ∧
    (lookupAll ks ps).cache_stats.hits = ps.cache_stats.hits ∧
    (lookupAll ks ps).cache_stats.misses = ps.cache_stats.misses + ks.length ∧
    (∃ new : Cache ColorKey String,
      (lookupAll ks ps).color_cache_24bit = new ++ ps.color_cache_24bit) ∧
    (∀ k ∈ ks, (Cache.findVal (lookupAll ks ps).color_cache_24bit k).isSome) := by
  induction ks with
  | nil =>
      intro ps hm _ _ _
      exact ⟨hm, rfl, rfl, ⟨[], rfl⟩, by simp⟩
  | cons k1 rest ih =>
      intro ps hm hrange hnd hfresh
      obtain ⟨code, hstep⟩ := getColorCode24_miss k1 ps hm (hrange k1 (by simp))
        (hfresh k1 (by simp))
      have hcons : lookupAll (k1 :: rest) ps =
          lookupAll rest ((getColorCodeCached k1.r k1.g k1.b k1.background ps).2) := rfl
      rw [List.nodup_cons] at hnd
      set ps1 := (getColorCodeCached k1.r k1.g k1.b k1.background ps).2 with hps1
      have hm1 : ps1.current_color_mode = COLOR_24BIT := by rw [hstep]; exact hm
      have hcache1 : ps1.color_cache_24bit = (k1, code) :: ps.color_cache_24bit := by
        rw [hstep]
      have hfresh1 : ∀ k ∈ rest, Cache.findVal ps1.color_cache_24bit k = none := by
        intro k hk
        rw [hcache1, findVal_cons]
        rw [if_neg (fun he => hnd.1 (by rw [he]; exact hk))]
        exact hfresh k (by simp [hk])
      obtain ⟨m1, m2, m3, ⟨new, hnew⟩, m5⟩ :=
        ih ps1 hm1 (fun k hk => hrange k (by simp [hk])) hnd.2 hfresh1
      refine ⟨by rwa [hcons], ?_, ?_, ?_, ?_⟩
      · rw [hcons, m2, hstep]
      · rw [hcons, m3, hstep]
        simp
        omega
      · refine ⟨new ++ [(k1, code)], ?_⟩
        rw [hcons, hnew, hcache1]
        simp
      · intro k hk
        rcases List.mem_cons.mp hk with hk1 | hkr
        · rw [hcons, hnew, hcache1]
          apply findVal_append_isSome
          rw [findVal_cons, hk1]
          simp
        · rw [hcons]
          exact m5 k hkr

lemma lookupAll_hits (ks : List ColorKey) :
    ∀ ps : PlayerState, ps.current_color_mode = COLOR_24BIT →
    (∀ k ∈ ks, KeyInRange k) →
    (∀ k ∈ ks, (Cache.findVal ps.color_cache_24bit k).isSome) →
    (lookupAll ks ps).cache_stats.hits = ps.cache_stats.hits + ks.length ∧
    (lookupAll ks ps).cache_stats.misses = ps.cache_stats.misses ∧
    (lookupAll ks ps).color_cache_24bit = ps.color_cache_24bit := by
  induction ks with
  | nil => intro ps _ _ _; exact ⟨rfl, rfl, rfl⟩
  | cons k1 rest ih =>
      intro ps hm hrange hsome
      obtain ⟨code, hcode⟩ := Option.isSome_iff_exists.mp (hsome k1 (by simp))
      have hstep := getColorCode24_hit k1 ps hm (hrange k1 (by simp)) code hcode
      have hcons : lookupAll (k1 :: rest) ps =
          lookupAll rest ((getColorCodeCached k1.r k1.g k1.b k1.background ps).2) := rfl
      set ps1 := (getColorCodeCached k1.r k1.g k1.b k1.background ps).2 with hps1
      have hm1 : ps1.current_color_mode = COLOR_24BIT := by rw [hstep]; exact hm
      have hc1 : ps1.color_cache_24bit = ps.color_cache_24bit := by rw [hstep]
      obtain ⟨m1, m2, m3⟩ := ih ps1 hm1 (fun k hk => hrange k (by simp [hk]))
        (fun k hk => by rw [hc1]; exact hsome k (by simp [hk]))
      refine ⟨?_, ?_, ?_⟩
      · rw [hcons, m1, hstep]
        simp
        omega
      · rw [hcons, m2, hstep]
      · rw [hcons, m3, hc1]

/-- C2 (status: corrected, amended claim).  In TrueColor24 mode, for any
list of pairwise-distinct in-range `ColorKey`s looked up from a fresh
player: the first pass counts exactly one miss per lookup and no hit,
repeating the same lookups counts exactly one hit per lookup and no
further miss, and an explicit cache clear resets both counters, the
recorded total cache size and all three caches to zero/empty.  (The
analogous statement for Indexed256 fails: there a miss also runs the
nested RGB→index lookup on the same counters — see the
counterexample.) -/
theorem c2_amended_cache_counters (ks : List ColorKey)
    (hrange : ∀ k ∈ ks, KeyInRange k) (hnd : ks.Nodup) :
    (lookupAll ks (emptyState COLOR_24BIT)).cache_stats.misses = ks.length ∧
    (lookupAll ks (emptyState COLOR_24BIT)).cache_stats.hits = 0 ∧
    (lookupAll ks (lookupAll ks (emptyState COLOR_24BIT))).cache_stats.hits = ks.length ∧
    (lookupAll ks (lookupAll ks (emptyState COLOR_24BIT))).cache_stats.misses = ks.length ∧
    (clearColorCaches (lookupAll ks (lookupAll ks
      (emptyState COLOR_24BIT)))).cache_stats = ⟨0, 0, 0⟩ ∧
    (clearColorCaches (lookupAll ks (lookupAll ks
      (emptyState COLOR_24BIT)))).color_cache_8bit = [] ∧
    (clearColorCaches (lookupAll ks (lookupAll ks
      (emptyState COLOR_24BIT)))).color_cache_24bit = [] ∧
    (clearColorCaches (lookupAll ks (lookupAll ks
      (emptyState COLOR_24BIT)))).rgb_to_8bit_cache = [] := by
  obtain ⟨p1, p2, p3, -, p5⟩ := lookupAll_fresh ks (emptyState COLOR_24BIT) rfl hrange hnd
    (fun k _ => rfl)
  obtain ⟨q1, q2, -⟩ := lookupAll_hits ks (lookupAll ks (emptyState COLOR_24BIT)) p1 hrange p5
  refine ⟨by simpa [emptyState] using p3, by simpa [emptyState] using p2, ?_, ?_,
    rfl, rfl, rfl, rfl⟩
  · rw [q1, p2]
    simp [emptyState]
  · rw [q2]
    simpa [emptyState] using p3

theorem c2_witness :
    (lookupAll [⟨1, 2, 3, false⟩, ⟨4, 5, 6, true⟩]
      (emptyState COLOR_24BIT)).cache_stats.misses = 2 ∧
    (lookupAll [⟨1, 2, 3, false⟩, ⟨4, 5, 6, true⟩]
      (emptyState COLOR_24BIT)).cache_stats.hits = 0 ∧
    (lookupAll [⟨1, 2, 3, false⟩, ⟨4, 5, 6, true⟩] (lookupAll [⟨1, 2, 3, false⟩, ⟨4, 5, 6, true⟩]
      (emptyState COLOR_24BIT))).cache_stats.hits = 2 ∧
    (lookupAll [⟨1, 2, 3, false⟩, ⟨4, 5, 6, true⟩] (lookupAll [⟨1, 2, 3, false⟩, ⟨4, 5, 6, true⟩]
      (emptyState COLOR_24BIT))).cache_stats.misses = 2 ∧
    (clearColorCaches (lookupAll [⟨1, 2, 3, false⟩, ⟨4, 5, 6, true⟩]
      (lookupAll [⟨1, 2, 3, false⟩, ⟨4, 5, 6, true⟩]
      (emptyState COLOR_24BIT)))).cache_stats = ⟨0, 0, 0⟩ ∧
    (clearColorCaches (lookupAll [⟨1, 2, 3, false⟩, ⟨4, 5, 6, true⟩]
      (lookupAll [⟨1, 2, 3, false⟩, ⟨4, 5, 6, true⟩]
      (emptyState COLOR_24BIT)))).color_cache_8bit = [] ∧
    (clearColorCaches (lookupAll [⟨1, 2, 3, false⟩, ⟨4, 5, 6, true⟩]
      (lookupAll [⟨1, 2, 3, false⟩, ⟨4, 5, 6, true⟩]
      (emptyState COLOR_24BIT)))).color_cache_24bit = [] ∧
    (clearColorCaches (lookupAll [⟨1, 2, 3, false⟩, ⟨4, 5, 6, true⟩]
      (lookupAll [⟨1, 2, 3, false⟩, ⟨4, 5, 6, true⟩]
      (emptyState COLOR_24BIT)))).rgb_to_8bit_cache = [] :=
  c2_amended_cache_counters [⟨1, 2, 3, false⟩, ⟨4, 5, 6, true⟩] (by decide) (by decide)

lemma str_data_append (a b : String) : (a ++ b).data = a.data ++ b.data := rfl

lemma str_nil_append (s : String) : "" ++ s = s := rfl

lemma str_append_assoc (a b c : String) : a ++ b ++ c = a ++ (b ++ c) :=
  congrArg String.mk (List.append_assoc a.data b.data c.data)

lemma countEsc_append (a b : String) : countEsc (a ++ b) = countEsc a + countEsc b := by
  unfold countEsc
  rw [str_data_append, List.count_append]

lemma escHeaded_append (a b : String) (h : EscHeaded a) : EscHeaded (a ++ b) := by
  unfold EscHeaded at *
  rw [str_data_append]
  cases ha : a.data with
  | nil => rw [ha] at h; simp at h
  | cons c l => rw [ha] at h; simpa using h

lemma escHeaded_ne_empty (a : String) (h : EscHeaded a) : a ≠ "" := by
  intro he
  rw [he] at h
  simp [EscHeaded] at h

lemma findVal_some_mem {α β : Type} [DecidableEq α] (c : Cache α β) (k : α) (v : β)
    (h : Cache.findVal c k = some v) : ∃ kv ∈ c, kv.2 = v := by
  unfold Cache.findVal at h
  cases hf : List.find? (fun kv => kv.1 = k) c with
  | none => rw [hf] at h; simp at h
  | some kv =>
      rw [hf] at h
      simp at h
      exact ⟨kv, List.mem_of_find?_eq_some hf, h⟩

lemma getColorCode_escHeaded (r g b : Nat) (bg : Bool) (ps : PlayerState)
    (hm : ps.current_color_mode ≠ MONO)
    (hwf8 : ∀ kv ∈ ps.color_cache_8bit, EscHeaded kv.2)
    (hwf24 : ∀ kv ∈ ps.color_cache_24bit, EscHeaded kv.2) :
    EscHeaded (getColorCodeCached r g b bg ps).1 := by
  unfold getColorCodeCached
  rw [if_neg hm]
  by_cases h8 : ps.current_color_mode = COLOR_8BIT
  · rw [if_pos h8]
    cases hfind : Cache.findVal ps.color_cache_8bit ⟨r % 256, g % 256, b % 256, bg⟩ with
    | some code =>
        obtain ⟨kv, hmem, hv⟩ := findVal_some_mem _ _ _ hfind
        simpa [hv] using hwf8 kv hmem
    | none =>
        simp only []
        repeat' apply escHeaded_append
        decide
  · rw [if_neg h8]
    by_cases h24 : ps.current_color_mode = COLOR_24BIT
    · rw [if_pos h24]
      cases hfind : Cache.findVal ps.color_cache_24bit ⟨r % 256, g % 256, b % 256, bg⟩ with
      | some code =>
          obtain ⟨kv, hmem, hv⟩ := findVal_some_mem _ _ _ hfind
          simpa [hv] using hwf24 kv hmem
      | none =>
          simp only []
          repeat' apply escHeaded_append
          decide
    · cases hmm : ps.current_color_mode <;> simp_all

lemma glyphChar_ne_esc (n : Nat) : glyphChar n ≠ escChar := by
  unfold glyphChar
  have hmem : ASCII_CHARS.getD (brightness_to_char_idx n) ' ' ∈ ' ' :: ASCII_CHARS := by
    rcases Nat.lt_or_ge (brightness_to_char_idx n) ASCII_CHARS.length with h | h
    · refine List.mem_cons_of_mem _ ?_
      rw [List.getD_eq_getElem _ _ h]
      exact List.getElem_mem h
    · rw [List.getD_eq_default _ _ h]
      exact List.mem_cons_self _ _
  intro hc
  rw [hc] at hmem
  have hnot : escChar ∉ (' ' :: ASCII_CHARS) := by decide
  exact hnot hmem

lemma asciiCell_no_esc (q : Pixel) : countEsc (asciiCell q) = 0 := by
  have h := glyphChar_ne_esc (luma q)
  simp [asciiCell, countEsc, String.singleton, List.count_cons, beq_iff_eq, h]

lemma blockCell_no_esc (q : Pixel) : countEsc (blockCell q) = 0 := rfl

lemma countEsc_joinAll (cell : Pixel → String) (hcell : ∀ q, countEsc (cell q) = 0)
    (ws : List Pixel) : countEsc (joinAll (ws.map cell)) = 0 := by
  induction ws with
  | nil => rfl
  | cons w ws ih => simp [joinAll, countEsc_append, hcell, ih]

lemma scanPixel_white (bg : Bool) (cell : Pixel → String) (ps : PlayerState) :
    scanPixel bg cell (initScan ps) whitePixel = (cell whitePixel, initScan ps) := by
  unfold scanPixel initScan whitePixel
  simp

lemma scanRow_white_leading (bg : Bool) (cell : Pixel → String) (ps : PlayerState)
    (ws : List Pixel) (hws : ∀ w ∈ ws, w = whitePixel) (l : List Pixel) :
    scanRow bg cell (initScan ps) (ws ++ l) =
      (joinAll (ws.map cell) ++ (scanRow bg cell (initScan ps) l).1,
       (scanRow bg cell (initScan ps) l).2) := by
  induction ws with
  | nil =>
      simp [joinAll, str_nil_append]
  | cons w ws ih =>
      have hw : w = whitePixel := hws w (List.mem_cons_self _ _)
      subst hw
      have ih2 := ih (fun k hk => hws k (List.mem_cons_of_mem _ hk))
      rw [List.cons_append]
      simp only [scanRow, scanPixel_white, ih2, List.map_cons, joinAll]
      rw [str_append_assoc]

lemma scanRow_nonwhite_head (bg : Bool) (cell : Pixel → String) (ps : PlayerState)
    (hmode : ps.current_color_mode ≠ MONO)
    (hwf8 : ∀ kv ∈ ps.color_cache_8bit, EscHeaded kv.2)
    (hwf24 : ∀ kv ∈ ps.color_cache_24bit, EscHeaded kv.2)
    (p : Pixel) (hp : p ≠ whitePixel) (zs : List Pixel) :
    EscHeaded (scanRow bg cell (initScan ps) (p :: zs)).1 := by
  have hcode := getColorCode_escHeaded p.r p.g p.b bg ps hmode hwf8 hwf24
  have hne := escHeaded_ne_empty _ hcode
  have hscanp : scanPixel bg cell (initScan ps) p =
      ((getColorCodeCached p.r p.g p.b bg ps).1 ++ cell p,
       ⟨(getColorCodeCached p.r p.g p.b bg ps).1, p, (getColorCodeCached p.r p.g p.b bg ps).2⟩) := by
    unfold scanPixel initScan
    rw [if_pos (by simpa [whitePixel] using hp), if_pos (by simpa using hne)]
  simp only [scanRow, hscanp]
  exact escHeaded_append _ _ (escHeaded_append _ _ hcode)

/-- C9 (status: confirmed).  The `lastPixel` sentinel is initialised to
white (255,255,255), itself a valid color, so in a colored mode a row
starting with a run of pure-white pixels emits no color escape for that
run — the run contributes only cell text (glyphs/spaces, ESC-free), the
remainder renders exactly as it would from a fresh row start, and the
first escape code appears exactly at the first non-white pixel (the row
output there begins with its ESC-headed code); any non-white starting
pixel is always preceded by its escape code.  Stated for both render
styles via the shared row scan (`bg`/`cell` instantiate the glyph and
filled-block variants); the cache well-formedness hypotheses say every
cached escape string starts with ESC, which every string the code ever
stores does. -/
theorem c9_white_sentinel (bg : Bool) (cell : Pixel → String) (ps : PlayerState)
    (hmode : ps.current_color_mode ≠ MONO)
    (hcell : ∀ q : Pixel, countEsc (cell q) = 0)
    (hwf8 : ∀ kv ∈ ps.color_cache_8bit, EscHeaded kv.2)
    (hwf24 : ∀ kv ∈ ps.color_cache_24bit, EscHeaded kv.2)
    (ws : List Pixel) (hws : ∀ w ∈ ws, w = whitePixel)
    (p : Pixel) (hp : p ≠ whitePixel) (zs : List Pixel) :
    (scanRow bg cell (initScan ps) (ws ++ p :: zs)).1 =
      joinAll (ws.map cell) ++ (scanRow bg cell (initScan ps) (p :: zs)).1 ∧
    countEsc (joinAll (ws.map cell)) = 0 ∧
    EscHeaded (scanRow bg cell (initScan ps) (p :: zs)).1 := by
  refine ⟨?_, countEsc_joinAll cell hcell ws,
    scanRow_nonwhite_head bg cell ps hmode hwf8 hwf24 p hp zs⟩
  rw [scanRow_white_leading bg cell ps ws hws (p :: zs)]

/-- C9 witness: one leading white pixel before a red pixel in TrueColor24
glyph mode. -/
theorem c9_witness :
    (scanRow false asciiCell (initScan ps24) ([whitePixel] ++ red :: [])).1 =
      joinAll ([whitePixel].map asciiCell) ++
        (scanRow false asciiCell (initScan ps24) (red :: [])).1 ∧
    countEsc (joinAll ([whitePixel].map asciiCell)) = 0 ∧
    EscHeaded (scanRow false asciiCell (initScan ps24) (red :: [])).1 :=
  c9_white_sentinel false asciiCell ps24 (by decide) asciiCell_no_esc
    (by simp [ps24, emptyState]) (by simp [ps24, emptyState])
    [whitePixel] (by simp) red (by decide) []

end TerminalVideo
